import Mathlib

/-!
Verification of the MP4-to-MP3 batch converter (`src/main.py`).

The program is a CLI orchestrator around an external `ffmpeg` process.
We embed its pure orchestration logic shallowly:

* a `pathlib.Path` is its list of components (`PyPath`);
* the filesystem visible to the program is a `FileSystem`: the lists of
  regular-file paths and directory paths existing at call time;
* the external tool is an oracle `Nat → InvokeResult` giving, for the
  i-th (1-based) invocation of the batch, whether `subprocess.run`
  raised `FileNotFoundError`, the exit code otherwise, and whether the
  destination path exists on disk at the moment of the `dst.exists()`
  check that follows the invocation;
* printed lines and spawned subprocesses are recorded as an `Event`
  trace, and `sys.exit` codes are the `Int` result of `mainRun`.

Glob matching follows POSIX `pathlib` semantics: `"*.mp4"` matches a
name iff it ends with the literal, case-sensitive string `".mp4"`,
while `Path.suffix` / `Path.with_suffix` follow CPython's definition
(last dot of the final component, not at position 0 or at the end).
-/

namespace VideoMp3

/-- A `pathlib.Path`, as its list of components. -/
abbrev PyPath := List String

/-- `str(path)` with `/` separators (POSIX). -/
def pathStr (p : PyPath) : String := String.intercalate "/" p

/-- `Path.name`: the final component (empty for the empty path). -/
def nameOf (p : PyPath) : String := (p.getLast?).getD ""

/-- Index of the last `.` in a list of characters, if any. -/
def lastDotIdx : List Char → Option Nat
  | [] => none
  | c :: rest =>
    match lastDotIdx rest with
    | some i => some (i + 1)
    | none => if c = '.' then some 0 else none

/-- `Path.suffix` of a name, per CPython: the part of the final
component from its last dot on, empty when the last dot is the first
or the last character or absent. -/
def pySuffix (name : String) : String :=
  let cs := name.toList
  match lastDotIdx cs with
  | none => ""
  | some i => if 0 < i ∧ i + 1 < cs.length then String.mk (cs.drop i) else ""

/-- `Path.with_suffix` on a single name: strip `pySuffix`, append the
new suffix. -/
def pyWithSuffixName (name suf : String) : String :=
  let s := pySuffix name
  String.mk (name.toList.take (name.toList.length - s.toList.length)) ++ suf

/-- `Path.with_suffix` on a path: rewrite the final component. -/
def withSuffixPath (p : PyPath) (suf : String) : PyPath :=
  match p with
  | [] => []
  | _ => p.dropLast ++ [pyWithSuffixName (nameOf p) suf]

/-- Python `str.lower()` (ASCII range, which covers the extensions the
program compares). -/
def strLower (s : String) : String := String.mk (s.toList.map Char.toLower)

/-- Does `s` end with `suf`?  (POSIX `fnmatch` against `"*.mp4"` is
exactly "name ends with the literal `.mp4`", since `*` also matches
the empty string.) -/
def strEndsWith (s suf : String) : Bool := suf.toList.isSuffixOf s.toList

/-- The filesystem state the program can observe: which paths are
regular files and which are directories. -/
structure FileSystem where
  files : List PyPath
  dirs : List PyPath
deriving DecidableEq, Repr

/-- Strict lexicographic order on character lists, as Python compares
two strings with `<`. -/
def charListLt : List Char → List Char → Bool
  | [], [] => false
  | [], _ :: _ => true
  | _ :: _, [] => false
  | a :: as, b :: bs => if a < b then true else if b < a then false else charListLt as bs

/-- Non-strict lexicographic order on component lists, with the
components compared as strings: how Python compares two tuples of
strings.  `PurePath.__lt__` compares `_parts_normcase`, the
case-normalized COMPONENT lists (on POSIX, the components themselves),
not the joined path strings — so `d/ab/c.mp4` sorts before `d/ab.mp4`,
because the component `ab` is a proper prefix of `ab.mp4`. -/
def partsLe : List String → List String → Bool
  | [], _ => true
  | _ :: _, [] => false
  | a :: as, b :: bs =>
    if charListLt a.toList b.toList then true
    else if charListLt b.toList a.toList then false
    else partsLe as bs

/-- Ordering used by Python's `sorted` on `Path` objects on POSIX:
`PurePath` comparison of the component lists. -/
def pathLe (a b : PyPath) : Prop :=
  partsLe a b = true

instance : DecidableRel pathLe := fun a b =>
  inferInstanceAs (Decidable (partsLe a b = true))

/-- Does file path `p` match `target.glob(pattern)` for the pattern the
program uses?  Non-recursive `"*.mp4"`: `p` is an immediate child of
`target` whose name ends in `".mp4"` (case-sensitive, POSIX `fnmatch`).
Recursive `"**/*.mp4"`: `p` is anywhere strictly below `target` with
the same name condition (`**` matches zero or more directories). -/
def matchesGlob (target : PyPath) (recursive : Bool) (p : PyPath) : Bool :=
  strEndsWith (nameOf p) ".mp4" &&
    (if recursive then decide (target.length < p.length) else p.length == target.length + 1) &&
    p.take target.length == target

/-- `find_mp4_files` (src/main.py:50-56).  A regular-file target is
returned as a singleton iff `target.suffix.lower() == ".mp4"`;
otherwise the target is globbed, the results restricted to regular
files, and sorted. -/
def find_mp4_files (fs : FileSystem) (target : PyPath) (recursive : Bool) : List PyPath :=
  if target ∈ fs.files then
    if strLower (pySuffix (nameOf target)) = ".mp4" then [target] else []
  else
    List.insertionSort pathLe (fs.files.filter (matchesGlob target recursive))

/-- The nonempty prefixes of a directory path: the directories
`output_dir.mkdir(parents=True, exist_ok=True)` guarantees to exist. -/
def childPrefixes (d : PyPath) : List PyPath :=
  (List.range d.length).map (fun i => d.take (i + 1))

/-- `d.mkdir(parents=True, exist_ok=True)`: afterwards `d` and all its
parents are directories; never an error when they already exist. -/
def mkdirParents (fs : FileSystem) (d : PyPath) : FileSystem :=
  FileSystem.mk fs.files (fs.dirs ++ childPrefixes d)

/-- `build_output_path` (src/main.py:59-65), with the `mkdir` side
effect made explicit: returns the output path and the updated
filesystem. -/
def build_output_path (fs : FileSystem) (input_path : PyPath) (output_dir : Option PyPath) :
    PyPath × FileSystem :=
  match output_dir with
  | none => (withSuffixPath input_path ".mp3", fs)
  | some d => (withSuffixPath (d ++ [nameOf input_path]) ".mp3", mkdirParents fs d)

/-- The ffmpeg command line built by `convert_one` (src/main.py:75-89). -/
def convert_cmd (input_path output_path bitrate : String) (overwrite : Bool) : List String :=
  ["ffmpeg", "-hide_banner", "-loglevel", "error",
   if overwrite then "-y" else "-n",
   "-i", input_path, "-vn", "-acodec", "libmp3lame", "-b:a", bitrate, output_path]

/-- Outcome of one `subprocess.run(cmd)` invocation, seen from the
program: whether `FileNotFoundError` was raised, the exit code when it
was not, and whether the destination path exists on disk at the
`dst.exists()` check right after the call. -/
structure InvokeResult where
  fnf : Bool
  code : Int
  dstExists : Bool
deriving DecidableEq, Repr

/-- The integer `convert_one` returns (src/main.py:92-97): the
subprocess exit code, or 127 when the ffmpeg binary cannot be found. -/
def convert_one_code (r : InvokeResult) : Int :=
  if r.fnf then 127 else r.code

/-- Classification of a per-file result by the batch loop. -/
inductive Outcome
  | success
  | skippedExisting
  | failed (code : Int)
deriving DecidableEq, Repr

/-- The if/elif/else classification of `main`'s loop
(src/main.py:160-166). -/
def classify (overwrite : Bool) (code : Int) (dstExists : Bool) : Outcome :=
  if code = 0 then Outcome.success
  else if code = 1 ∧ overwrite = false ∧ dstExists = true then Outcome.skippedExisting
  else Outcome.failed code

/-- Classification of a whole invocation outcome. -/
def outcomeOf (overwrite : Bool) (r : InvokeResult) : Outcome :=
  classify overwrite (convert_one_code r) r.dstExists

/-- Contribution of one invocation to the failure counter. -/
def stepFail (overwrite : Bool) (r : InvokeResult) : Nat :=
  match outcomeOf overwrite r with
  | Outcome.failed _ => 1
  | _ => 0

/-- Observable output and subprocess activity of the program. -/
inductive Event
  | ffmpegMissing
  | inputNotFound (target : PyPath)
  | noFiles
  | progress (idx total : Nat) (src dst : PyPath)
  | invokeTool (cmd : List String)
  | ffmpegNotFoundNotice
  | skipNotice (dst : PyPath)
  | failNotice (code : Int) (src : PyPath)
  | summaryFail (succeeded failed : Nat)
  | summaryOk (total : Nat)
deriving DecidableEq, Repr

/-- The notices printed for one invocation after the progress line:
the ffmpeg-not-found diagnostic when `FileNotFoundError` was raised,
then the skip or failure notice according to the classification. -/
def stepEvents (overwrite : Bool) (r : InvokeResult) (src dst : PyPath) : List Event :=
  (if r.fnf then [Event.ffmpegNotFoundNotice] else []) ++
    match outcomeOf overwrite r with
    | Outcome.success => []
    | Outcome.skippedExisting => [Event.skipNotice dst]
    | Outcome.failed c => [Event.failNotice c src]

/-- The batch loop of `main` (src/main.py:156-166) from position `idx`
(1-based) on: returns the failure count over `inputs`, the event
trace, and the filesystem after the `mkdir` side effects. -/
def processFrom (fs : FileSystem) (inputs : List PyPath) (idx total : Nat)
    (output_dir : Option PyPath) (bitrate : String) (overwrite : Bool)
    (invoke : Nat → InvokeResult) : Nat × List Event × FileSystem :=
  match inputs with
  | [] => (0, [], fs)
  | src :: rest =>
    let built := build_output_path fs src output_dir
    let dst := built.1
    let r := invoke idx
    let evHere :=
      Event.progress idx total src dst ::
        Event.invokeTool (convert_cmd (pathStr src) (pathStr dst) bitrate overwrite) ::
          stepEvents overwrite r src dst
    let restRes := processFrom built.2 rest (idx + 1) total output_dir bitrate overwrite invoke
    (stepFail overwrite r + restRes.1, evHere ++ restRes.2.1, restRes.2.2)

/-- The parsed CLI arguments plus whether `shutil.which("ffmpeg")`
succeeds at startup. -/
structure RunConfig where
  ffmpegAvailable : Bool
  input : PyPath
  output_dir : Option PyPath
  bitrate : String
  recursive : Bool
  overwrite : Bool

/-- `Path.exists()`: the path is a regular file or a directory. -/
def pathExists (fs : FileSystem) (p : PyPath) : Bool :=
  decide (p ∈ fs.files) || decide (p ∈ fs.dirs)

/-- The candidate list `main` computes: `find_mp4_files(target,
args.recursive)` (src/main.py:148). -/
def batchInputs (cfg : RunConfig) (fs : FileSystem) : List PyPath :=
  find_mp4_files fs cfg.input cfg.recursive

/-- The whole batch loop of `main` run over `batchInputs`, from index 1:
failure count, event trace, final filesystem. -/
def batchRes (cfg : RunConfig) (fs : FileSystem) (invoke : Nat → InvokeResult) :
    Nat × List Event × FileSystem :=
  processFrom fs (batchInputs cfg fs) 1 (batchInputs cfg fs).length
    cfg.output_dir cfg.bitrate cfg.overwrite invoke

/-- The whole run (src/main.py:138-177) as the process sees it: the
process exit code (127 from the `SystemExit` of
`ensure_ffmpeg_available`, otherwise the return value of `main`) and
the event trace. -/
def mainRun (cfg : RunConfig) (fs : FileSystem) (invoke : Nat → InvokeResult) :
    Int × List Event :=
  if cfg.ffmpegAvailable = false then (127, [Event.ffmpegMissing])
  else if pathExists fs cfg.input = false then (2, [Event.inputNotFound cfg.input])
  else if batchInputs cfg fs = [] then (1, [Event.noFiles])
  else if (batchRes cfg fs invoke).1 ≠ 0 then
    (1, (batchRes cfg fs invoke).2.1
          ++ [Event.summaryFail
                ((batchInputs cfg fs).length - (batchRes cfg fs invoke).1)
                (batchRes cfg fs invoke).1])
  else
    (0, (batchRes cfg fs invoke).2.1 ++ [Event.summaryOk (batchInputs cfg fs).length])

/-- Claim C3's own description of directory discovery, for comparison
with `find_mp4_files`: immediate children (or, recursively, all files
below the directory) whose extension matches `.mp4`
case-insensitively, regular files only, sorted. -/
def discoverClaimed (fs : FileSystem) (target : PyPath) (recursive : Bool) : List PyPath :=
  List.insertionSort pathLe (fs.files.filter (fun p =>
    (strLower (pySuffix (nameOf p)) == ".mp4") &&
      (if recursive then decide (target.length < p.length) else p.length == target.length + 1) &&
      p.take target.length == target))

/-- The quiet-logging flags of the ffmpeg invocation, as the spec
groups them. -/
def quietFlags : List String := ["-hide_banner", "-loglevel", "error"]

/-- The overwrite-policy flag: force-overwrite vs fail-if-exists. -/
def overwriteFlag (ow : Bool) : String := if ow then "-y" else "-n"

/-! ## Order lemmas for the sort relation -/

theorem str_eq_of_toList_eq {a b : String} (h : a.toList = b.toList) : a = b := by
  cases a
  cases b
  simp only [String.toList] at h
  rw [h]

theorem charListLt_cons {x y : Char} {xs ys : List Char} :
    charListLt (x :: xs) (y :: ys) = true ↔ x < y ∨ (x = y ∧ charListLt xs ys = true) := by
  have hstep : charListLt (x :: xs) (y :: ys)
      = if x < y then true else if y < x then false else charListLt xs ys := rfl
  rw [hstep]
  by_cases h1 : x < y
  · rw [if_pos h1]
    simp [h1]
  · by_cases h2 : y < x
    · rw [if_neg h1, if_pos h2]
      constructor
      · intro hf
        exact absurd hf (by decide)
      · rintro (h | ⟨he, -⟩)
        · exact absurd h h1
        · exact absurd h2 (by rw [he]; exact lt_irrefl y)
    · have hxy : x = y := le_antisymm (not_lt.mp h2) (not_lt.mp h1)
      rw [if_neg h1, if_neg h2]
      subst hxy
      simp [lt_irrefl]

theorem charListLt_irrefl : ∀ u : List Char, ¬ charListLt u u = true
  | [] => by decide
  | x :: xs => by
    intro h
    rcases charListLt_cons.mp h with h1 | ⟨-, h2⟩
    · exact lt_irrefl x h1
    · exact charListLt_irrefl xs h2

theorem charListLt_trichotomy : ∀ u v : List Char,
    charListLt u v = true ∨ charListLt v u = true ∨ u = v
  | [], [] => Or.inr (Or.inr rfl)
  | [], _ :: _ => Or.inl rfl
  | _ :: _, [] => Or.inr (Or.inl rfl)
  | x :: xs, y :: ys => by
    rcases lt_trichotomy x y with h | h | h
    · exact Or.inl (charListLt_cons.mpr (Or.inl h))
    · subst h
      rcases charListLt_trichotomy xs ys with ht | ht | ht
      · exact Or.inl (charListLt_cons.mpr (Or.inr ⟨rfl, ht⟩))
      · exact Or.inr (Or.inl (charListLt_cons.mpr (Or.inr ⟨rfl, ht⟩)))
      · exact Or.inr (Or.inr (by rw [ht]))
    · exact Or.inr (Or.inl (charListLt_cons.mpr (Or.inl h)))

theorem charListLt_trans :
    ∀ {a b c : List Char}, charListLt a b = true → charListLt b c = true → charListLt a c = true
  | [], [], _, h1, _ => by exact absurd h1 (by decide)
  | [], _ :: _, [], _, h2 => by exact absurd h2 (by simp [charListLt])
  | [], _ :: _, _ :: _, _, _ => rfl
  | _ :: _, [], _, h1, _ => by exact absurd h1 (by simp [charListLt])
  | _ :: _, _ :: _, [], _, h2 => by exact absurd h2 (by simp [charListLt])
  | x :: xs, y :: ys, z :: zs, h1, h2 => by
    rcases charListLt_cons.mp h1 with hxy | ⟨hxy, hts1⟩ <;>
      rcases charListLt_cons.mp h2 with hyz | ⟨hyz, hts2⟩
    · exact charListLt_cons.mpr (Or.inl (lt_trans hxy hyz))
    · exact charListLt_cons.mpr (Or.inl (hyz ▸ hxy))
    · exact charListLt_cons.mpr (Or.inl (hxy ▸ hyz))
    · exact charListLt_cons.mpr (Or.inr ⟨hxy.trans hyz, charListLt_trans hts1 hts2⟩)

theorem partsLe_cons {a b : String} {as bs : List String} :
    partsLe (a :: as) (b :: bs) = true
      ↔ charListLt a.toList b.toList = true ∨ (a = b ∧ partsLe as bs = true) := by
  have hstep : partsLe (a :: as) (b :: bs)
      = if charListLt a.toList b.toList then true
        else if charListLt b.toList a.toList then false
        else partsLe as bs := rfl
  rw [hstep]
  by_cases h1 : charListLt a.toList b.toList = true
  · rw [if_pos h1]
    exact iff_of_true rfl (Or.inl h1)
  · by_cases h2 : charListLt b.toList a.toList = true
    · rw [if_neg h1, if_pos h2]
      constructor
      · intro hf
        exact absurd hf (by decide)
      · rintro (h | ⟨he, -⟩)
        · exact absurd h h1
        · subst he
          exact absurd h2 (charListLt_irrefl _)
    · have hab : a = b := by
        rcases charListLt_trichotomy a.toList b.toList with h | h | h
        · exact absurd h h1
        · exact absurd h h2
        · exact str_eq_of_toList_eq h
      rw [if_neg h1, if_neg h2]
      subst hab
      constructor
      · intro ht
        exact Or.inr ⟨rfl, ht⟩
      · rintro (h | ⟨-, ht⟩)
        · exact absurd h h1
        · exact ht

theorem partsLe_total : ∀ a b : List String, partsLe a b = true ∨ partsLe b a = true
  | [], _ => Or.inl rfl
  | _ :: _, [] => Or.inr rfl
  | x :: xs, y :: ys => by
    rcases charListLt_trichotomy x.toList y.toList with h | h | h
    · exact Or.inl (partsLe_cons.mpr (Or.inl h))
    · exact Or.inr (partsLe_cons.mpr (Or.inl h))
    · have hxy : x = y := str_eq_of_toList_eq h
      rcases partsLe_total xs ys with ht | ht
      · exact Or.inl (partsLe_cons.mpr (Or.inr ⟨hxy, ht⟩))
      · exact Or.inr (partsLe_cons.mpr (Or.inr ⟨hxy.symm, ht⟩))

theorem partsLe_trans :
    ∀ {a b c : List String}, partsLe a b = true → partsLe b c = true → partsLe a c = true
  | [], _, _, _, _ => rfl
  | _ :: _, [], _, h1, _ => by exact absurd h1 (by simp [partsLe])
  | _ :: _, _ :: _, [], _, h2 => by exact absurd h2 (by simp [partsLe])
  | x :: xs, y :: ys, z :: zs, h1, h2 => by
    rcases partsLe_cons.mp h1 with hxy | ⟨hxy, hts1⟩ <;>
      rcases partsLe_cons.mp h2 with hyz | ⟨hyz, hts2⟩
    · exact partsLe_cons.mpr (Or.inl (charListLt_trans hxy hyz))
    · exact partsLe_cons.mpr (Or.inl (hyz ▸ hxy))
    · exact partsLe_cons.mpr (Or.inl (hxy ▸ hyz))
    · exact partsLe_cons.mpr (Or.inr ⟨hxy.trans hyz, partsLe_trans hts1 hts2⟩)

instance : IsTotal PyPath pathLe := ⟨fun a b => partsLe_total a b⟩

instance : IsTrans PyPath pathLe := ⟨fun _ _ _ h1 h2 => partsLe_trans h1 h2⟩

/-! ## Helper lemmas about the batch loop -/

/-- One step of the batch loop, unfolded. -/
theorem processFrom_cons (fs : FileSystem) (src : PyPath) (rest : List PyPath)
    (idx total : Nat) (od : Option PyPath) (br : String) (ow : Bool)
    (invoke : Nat → InvokeResult) :
    processFrom fs (src :: rest) idx total od br ow invoke
      = (stepFail ow (invoke idx)
           + (processFrom (build_output_path fs src od).2 rest (idx + 1) total od br ow invoke).1,
         Event.progress idx total src (build_output_path fs src od).1 ::
           Event.invokeTool
             (convert_cmd (pathStr src) (pathStr (build_output_path fs src od).1) br ow) ::
             (stepEvents ow (invoke idx) src (build_output_path fs src od).1
               ++ (processFrom (build_output_path fs src od).2 rest (idx + 1) total
                     od br ow invoke).2.1),
         (processFrom (build_output_path fs src od).2 rest (idx + 1) total od br ow invoke).2.2) :=
  rfl

/-- If the `k`-th invocation of the window `idx .. idx+|inputs|-1`
counts as a failure, the loop's failure count is at least 1. -/
theorem processFrom_failures_lower :
    ∀ (inputs : List PyPath) (fs : FileSystem) (idx total : Nat) (od : Option PyPath)
      (br : String) (ow : Bool) (invoke : Nat → InvokeResult) (k : Nat),
      idx ≤ k → k < idx + inputs.length → stepFail ow (invoke k) = 1 →
      1 ≤ (processFrom fs inputs idx total od br ow invoke).1
  | [], _, _, _, _, _, _, _, _, h1, h2, _ => by
      simp only [List.length_nil] at h2
      omega
  | src :: rest, fs, idx, total, od, br, ow, invoke, k, h1, h2, h3 => by
      have hfst : (processFrom fs (src :: rest) idx total od br ow invoke).1
          = stepFail ow (invoke idx)
            + (processFrom (build_output_path fs src od).2 rest (idx + 1) total
                 od br ow invoke).1 := rfl
      rw [hfst]
      by_cases hk : k = idx
      · subst hk
        rw [h3]
        exact Nat.le_add_right 1 _
      · have hrec := processFrom_failures_lower rest (build_output_path fs src od).2
          (idx + 1) total od br ow invoke k (by omega)
          (by simp only [List.length_cons] at h2; omega) h3
        omega

/-- `main` under the three guards: available tool, existing input,
nonempty candidate list. -/
theorem mainRun_summary (cfg : RunConfig) (fs : FileSystem) (invoke : Nat → InvokeResult)
    (hav : cfg.ffmpegAvailable = true) (hex : pathExists fs cfg.input = true)
    (hne : batchInputs cfg fs ≠ []) :
    mainRun cfg fs invoke
      = if (batchRes cfg fs invoke).1 ≠ 0 then
          (1, (batchRes cfg fs invoke).2.1
                ++ [Event.summaryFail
                      ((batchInputs cfg fs).length - (batchRes cfg fs invoke).1)
                      (batchRes cfg fs invoke).1])
        else
          (0, (batchRes cfg fs invoke).2.1 ++ [Event.summaryOk (batchInputs cfg fs).length]) := by
  unfold mainRun
  rw [hav, hex]
  have ht : ¬(true = false) := by decide
  rw [if_neg ht, if_neg ht, if_neg hne]

/-- When the pre-flight check passes, the process never exits 127. -/
theorem mainRun_ne_127 (cfg : RunConfig) (fs : FileSystem) (invoke : Nat → InvokeResult)
    (hav : cfg.ffmpegAvailable = true) : (mainRun cfg fs invoke).1 ≠ 127 := by
  unfold mainRun
  rw [hav]
  have ht : ¬(true = false) := by decide
  rw [if_neg ht]
  by_cases h2 : pathExists fs cfg.input = false
  · rw [if_pos h2]
    simp
  · rw [if_neg h2]
    by_cases h3 : batchInputs cfg fs = []
    · rw [if_pos h3]
      simp
    · rw [if_neg h3]
      by_cases h4 : (batchRes cfg fs invoke).1 ≠ 0
      · rw [if_pos h4]
        simp
      · rw [if_neg h4]
        simp

/-! ## Claim theorems -/

/-- C1: for every per-file invocation outcome in a batch run, exit
code 0 is classified Success; exit code 1 with the overwrite flag
false and the output path existing on disk is classified
SkippedExisting and does not increment the failure counter; every
other nonzero exit code is classified Failed(code), increments the
failure counter and prints a failure notice, and the batch continues
to the next candidate rather than aborting (the loop result is the
step's contribution combined with the full result over the remaining
candidates). -/
theorem C1_per_file_classification (fs : FileSystem) (src : PyPath) (rest : List PyPath)
    (idx total : Nat) (od : Option PyPath) (br : String) (ow : Bool)
    (invoke : Nat → InvokeResult) :
    (convert_one_code (invoke idx) = 0 →
      outcomeOf ow (invoke idx) = Outcome.success ∧ stepFail ow (invoke idx) = 0) ∧
    (convert_one_code (invoke idx) = 1 → ow = false → (invoke idx).dstExists = true →
      outcomeOf ow (invoke idx) = Outcome.skippedExisting ∧ stepFail ow (invoke idx) = 0) ∧
    (convert_one_code (invoke idx) ≠ 0 →
      ¬(convert_one_code (invoke idx) = 1 ∧ ow = false ∧ (invoke idx).dstExists = true) →
      outcomeOf ow (invoke idx) = Outcome.failed (convert_one_code (invoke idx)) ∧
        stepFail ow (invoke idx) = 1 ∧
        Event.failNotice (convert_one_code (invoke idx)) src
          ∈ stepEvents ow (invoke idx) src (build_output_path fs src od).1) ∧
    processFrom fs (src :: rest) idx total od br ow invoke
      = (stepFail ow (invoke idx)
           + (processFrom (build_output_path fs src od).2 rest (idx + 1) total od br ow invoke).1,
         Event.progress idx total src (build_output_path fs src od).1 ::
           Event.invokeTool
             (convert_cmd (pathStr src) (pathStr (build_output_path fs src od).1) br ow) ::
             (stepEvents ow (invoke idx) src (build_output_path fs src od).1
               ++ (processFrom (build_output_path fs src od).2 rest (idx + 1) total
                     od br ow invoke).2.1),
         (processFrom (build_output_path fs src od).2 rest (idx + 1) total od br ow invoke).2.2) := by
  refine ⟨?_, ?_, ?_, processFrom_cons fs src rest idx total od br ow invoke⟩
  · intro h0
    have hout : outcomeOf ow (invoke idx) = Outcome.success := by
      unfold outcomeOf classify
      rw [if_pos h0]
    refine ⟨hout, ?_⟩
    unfold stepFail
    rw [hout]
  · intro h1 how hde
    have hout : outcomeOf ow (invoke idx) = Outcome.skippedExisting := by
      unfold outcomeOf classify
      rw [if_neg (by rw [h1]; decide), if_pos ⟨h1, how, hde⟩]
    refine ⟨hout, ?_⟩
    unfold stepFail
    rw [hout]
  · intro hne0 hnskip
    have hout : outcomeOf ow (invoke idx) = Outcome.failed (convert_one_code (invoke idx)) := by
      unfold outcomeOf classify
      rw [if_neg hne0, if_neg hnskip]
    refine ⟨hout, ?_, ?_⟩
    · unfold stepFail
      rw [hout]
    · unfold stepEvents
      rw [hout]
      simp

def w1fs : FileSystem := ⟨[["in", "a.mp4"]], [["in"]]⟩

def w1inv : Nat → InvokeResult := fun _ => ⟨false, 3, false⟩

/-- Witness for C1 at a concrete batch: one file, exit code 3. -/
theorem C1_witness :
    (convert_one_code (w1inv 1) = 0 →
      outcomeOf false (w1inv 1) = Outcome.success ∧ stepFail false (w1inv 1) = 0) ∧
    (convert_one_code (w1inv 1) = 1 → false = false → (w1inv 1).dstExists = true →
      outcomeOf false (w1inv 1) = Outcome.skippedExisting ∧ stepFail false (w1inv 1) = 0) ∧
    (convert_one_code (w1inv 1) ≠ 0 →
      ¬(convert_one_code (w1inv 1) = 1 ∧ false = false ∧ (w1inv 1).dstExists = true) →
      outcomeOf false (w1inv 1) = Outcome.failed (convert_one_code (w1inv 1)) ∧
        stepFail false (w1inv 1) = 1 ∧
        Event.failNotice (convert_one_code (w1inv 1)) ["in", "a.mp4"]
          ∈ stepEvents false (w1inv 1) ["in", "a.mp4"]
              (build_output_path w1fs ["in", "a.mp4"] none).1) ∧
    processFrom w1fs [["in", "a.mp4"]] 1 1 none "192k" false w1inv
      = (stepFail false (w1inv 1)
           + (processFrom (build_output_path w1fs ["in", "a.mp4"] none).2 [] (1 + 1) 1
                none "192k" false w1inv).1,
         Event.progress 1 1 ["in", "a.mp4"] (build_output_path w1fs ["in", "a.mp4"] none).1 ::
           Event.invokeTool
             (convert_cmd (pathStr ["in", "a.mp4"])
               (pathStr (build_output_path w1fs ["in", "a.mp4"] none).1) "192k" false) ::
             (stepEvents false (w1inv 1) ["in", "a.mp4"]
                 (build_output_path w1fs ["in", "a.mp4"] none).1
               ++ (processFrom (build_output_path w1fs ["in", "a.mp4"] none).2 [] (1 + 1) 1
                     none "192k" false w1inv).2.1),
         (processFrom (build_output_path w1fs ["in", "a.mp4"] none).2 [] (1 + 1) 1
            none "192k" false w1inv).2.2) :=
  C1_per_file_classification w1fs ["in", "a.mp4"] [] 1 1 none "192k" false w1inv

/-- C2: for every non-empty batch, after all candidates are processed,
a positive failure counter yields the succeeded/failed summary and
exit code 1, and a zero failure counter yields the success summary and
exit code 0. -/
theorem C2_batch_summary (cfg : RunConfig) (fs : FileSystem) (invoke : Nat → InvokeResult)
    (hav : cfg.ffmpegAvailable = true) (hex : pathExists fs cfg.input = true)
    (hne : batchInputs cfg fs ≠ []) :
    (0 < (batchRes cfg fs invoke).1 →
      mainRun cfg fs invoke
        = (1, (batchRes cfg fs invoke).2.1
              ++ [Event.summaryFail
                    ((batchInputs cfg fs).length - (batchRes cfg fs invoke).1)
                    (batchRes cfg fs invoke).1])) ∧
    ((batchRes cfg fs invoke).1 = 0 →
      mainRun cfg fs invoke
        = (0, (batchRes cfg fs invoke).2.1
              ++ [Event.summaryOk (batchInputs cfg fs).length])) := by
  have h := mainRun_summary cfg fs invoke hav hex hne
  constructor
  · intro h0
    rw [h, if_pos (by omega)]
  · intro h0
    rw [h, if_neg (by omega)]

def w2fs : FileSystem := ⟨[["in", "a.mp4"]], [["in"]]⟩

def w2cfg : RunConfig := ⟨true, ["in", "a.mp4"], none, "192k", false, false⟩

def w2inv : Nat → InvokeResult := fun _ => ⟨false, 3, false⟩

/-- Witness for C2 at a concrete batch: one file which fails with exit
code 3. -/
theorem C2_witness :
    (0 < (batchRes w2cfg w2fs w2inv).1 →
      mainRun w2cfg w2fs w2inv
        = (1, (batchRes w2cfg w2fs w2inv).2.1
              ++ [Event.summaryFail
                    ((batchInputs w2cfg w2fs).length - (batchRes w2cfg w2fs w2inv).1)
                    (batchRes w2cfg w2fs w2inv).1])) ∧
    ((batchRes w2cfg w2fs w2inv).1 = 0 →
      mainRun w2cfg w2fs w2inv
        = (0, (batchRes w2cfg w2fs w2inv).2.1
              ++ [Event.summaryOk (batchInputs w2cfg w2fs).length])) :=
  C2_batch_summary w2cfg w2fs w2inv rfl (by decide) (by decide)

/-- Counterexample for C3: the directory `d` contains the regular file
`A.MP4`, whose extension matches `.mp4` case-insensitively, yet
non-recursive discovery returns the empty list, differing from the
claim's own case-insensitive description of discovery: `glob("*.mp4")`
is case-sensitive on a POSIX filesystem. -/
theorem C3_counterexample :
    find_mp4_files ⟨[["d", "A.MP4"]], [["d"]]⟩ ["d"] false = []
      ∧ discoverClaimed ⟨[["d", "A.MP4"]], [["d"]]⟩ ["d"] false = [["d", "A.MP4"]]
      ∧ strLower (pySuffix (nameOf [("d" : String), "A.MP4"])) = ".mp4" := by
  refine ⟨by decide, by decide, by decide⟩

/-- C3 as amended: for a directory target, discovery returns exactly
the regular files at the globbed depth whose name ends with the
lowercase literal `.mp4` (case-SENSITIVE match, so `.MP4` files are
not returned), immediate children when non-recursive and all strictly
deeper files when recursive, and the result is sorted lexicographically
by path. -/
theorem C3_directory_discovery (fs : FileSystem) (target : PyPath) (recursive : Bool)
    (hdir : target ∉ fs.files) :
    (∀ p, p ∈ find_mp4_files fs target recursive ↔
        p ∈ fs.files ∧ (strEndsWith (nameOf p) ".mp4" = true
          ∧ (if recursive then target.length < p.length else p.length = target.length + 1))
          ∧ p.take target.length = target) ∧
    List.Sorted pathLe (find_mp4_files fs target recursive) := by
  constructor
  · intro p
    unfold find_mp4_files
    rw [if_neg hdir]
    rw [List.mem_insertionSort, List.mem_filter]
    unfold matchesGlob
    cases recursive <;>
      simp [Bool.and_eq_true, decide_eq_true_eq, beq_iff_eq]
  · unfold find_mp4_files
    rw [if_neg hdir]
    exact List.sorted_insertionSort pathLe _

def w3fs : FileSystem := ⟨[["d", "b.mp4"], ["d", "x.txt"]], [["d"]]⟩

/-- Witness for C3's amended theorem at a concrete directory. -/
theorem C3_witness :
    (∀ p, p ∈ find_mp4_files w3fs ["d"] false ↔
        p ∈ w3fs.files ∧ (strEndsWith (nameOf p) ".mp4" = true
          ∧ (if false then (["d"] : PyPath).length < p.length
             else p.length = (["d"] : PyPath).length + 1))
          ∧ p.take (["d"] : PyPath).length = ["d"]) ∧
    List.Sorted pathLe (find_mp4_files w3fs ["d"] false) :=
  C3_directory_discovery w3fs ["d"] false (by decide)

/-- Counterexample for C4: a run whose single candidate is classified
SkippedExisting (ffmpeg exits 1, overwrite is false, the output exists
on disk) and in which nothing is classified Failed finishes with
process exit code 0 and the success summary — not exit code 1 as the
claim states. -/
theorem C4_counterexample :
    mainRun ⟨true, ["in", "a.mp4"], none, "192k", false, false⟩
        ⟨[["in", "a.mp4"]], [["in"]]⟩ (fun _ => ⟨false, 1, true⟩)
      = (0, [Event.progress 1 1 ["in", "a.mp4"] ["in", "a.mp3"],
             Event.invokeTool ["ffmpeg", "-hide_banner", "-loglevel", "error", "-n",
               "-i", "in/a.mp4", "-vn", "-acodec", "libmp3lame", "-b:a", "192k", "in/a.mp3"],
             Event.skipNotice ["in", "a.mp3"],
             Event.summaryOk 1]) := by
  decide

/-- C4 as amended: a run with at least one SkippedExisting candidate
and a zero failure counter (no candidate classified Failed) finishes
with process exit code 0 and the success summary; skips do NOT count
into the failure accounting. -/
theorem C4_skips_exit_zero (cfg : RunConfig) (fs : FileSystem) (invoke : Nat → InvokeResult)
    (hav : cfg.ffmpegAvailable = true) (hex : pathExists fs cfg.input = true)
    (hne : batchInputs cfg fs ≠ [])
    (_hskip : ∃ d, Event.skipNotice d ∈ (batchRes cfg fs invoke).2.1)
    (hnofail : (batchRes cfg fs invoke).1 = 0) :
    (mainRun cfg fs invoke).1 = 0 ∧
    (mainRun cfg fs invoke).2
      = (batchRes cfg fs invoke).2.1 ++ [Event.summaryOk (batchInputs cfg fs).length] := by
  have h := mainRun_summary cfg fs invoke hav hex hne
  rw [h, if_neg (by omega)]
  exact ⟨rfl, rfl⟩

def w4fs : FileSystem := ⟨[["in", "a.mp4"]], [["in"]]⟩

def w4cfg : RunConfig := ⟨true, ["in", "a.mp4"], none, "192k", false, false⟩

def w4inv : Nat → InvokeResult := fun _ => ⟨false, 1, true⟩

/-- Witness for C4's amended theorem: the skipped-only batch of the
counterexample indeed exits 0. -/
theorem C4_witness :
    (mainRun w4cfg w4fs w4inv).1 = 0 ∧
    (mainRun w4cfg w4fs w4inv).2
      = (batchRes w4cfg w4fs w4inv).2.1 ++ [Event.summaryOk (batchInputs w4cfg w4fs).length] :=
  C4_skips_exit_zero w4cfg w4fs w4inv rfl (by decide) (by decide)
    ⟨["in", "a.mp3"], by decide⟩ (by decide)

/-- C5: for a regular-file target, discovery returns the singleton
containing that file iff its `Path.suffix`, lowercased, is `.mp4`
(case-insensitive match), and the empty sequence otherwise — whatever
the recursion flag. -/
theorem C5_single_file_target (fs : FileSystem) (target : PyPath) (recursive : Bool)
    (h : target ∈ fs.files) :
    (find_mp4_files fs target recursive = [target]
        ↔ strLower (pySuffix (nameOf target)) = ".mp4") ∧
    (strLower (pySuffix (nameOf target)) ≠ ".mp4" →
      find_mp4_files fs target recursive = []) := by
  unfold find_mp4_files
  rw [if_pos h]
  by_cases hs : strLower (pySuffix (nameOf target)) = ".mp4"
  · rw [if_pos hs]
    exact ⟨⟨fun _ => hs, fun _ => rfl⟩, fun hn => absurd hs hn⟩
  · rw [if_neg hs]
    refine ⟨⟨fun he => ?_, fun hm => absurd hm hs⟩, fun _ => rfl⟩
    simp at he

def w5fs : FileSystem := ⟨[["v.MP4"]], []⟩

/-- Witness for C5 at a concrete uppercase-extension file. -/
theorem C5_witness :
    (find_mp4_files w5fs [("v.MP4" : String)] true = [[("v.MP4" : String)]]
        ↔ strLower (pySuffix (nameOf [("v.MP4" : String)])) = ".mp4") ∧
    (strLower (pySuffix (nameOf [("v.MP4" : String)])) ≠ ".mp4" →
      find_mp4_files w5fs [("v.MP4" : String)] true = []) :=
  C5_single_file_target w5fs ["v.MP4"] true (by decide)

/-- C6: `derive_output(f, None)` is `f`'s own path (same parent) with
its final component's extension replaced by `.mp3`, touching no
directory; `derive_output(f, dir)` is `dir` joined with `f`'s base
name with the extension replaced, and afterwards `dir` and all its
parents exist regardless of whether they existed before, while
directories that already existed are preserved (creation is idempotent
and error-free). -/
theorem C6_output_derivation (fs : FileSystem) (f d : PyPath) (hf : f ≠ []) (hd : d ≠ []) :
    (build_output_path fs f none).1 = f.dropLast ++ [pyWithSuffixName (nameOf f) ".mp3"] ∧
    (build_output_path fs f none).2 = fs ∧
    (build_output_path fs f (some d)).1 = d ++ [pyWithSuffixName (nameOf f) ".mp3"] ∧
    d ∈ (build_output_path fs f (some d)).2.dirs ∧
    (∀ q, q ∈ childPrefixes d → q ∈ (build_output_path fs f (some d)).2.dirs) ∧
    (∀ q, q ∈ fs.dirs → q ∈ (build_output_path fs f (some d)).2.dirs) := by
  have hws : ∀ (p : PyPath), p ≠ [] →
      withSuffixPath p ".mp3" = p.dropLast ++ [pyWithSuffixName (nameOf p) ".mp3"] := by
    intro p hp
    cases p with
    | nil => exact absurd rfl hp
    | cons a l => rfl
  have hone : withSuffixPath f ".mp3" = f.dropLast ++ [pyWithSuffixName (nameOf f) ".mp3"] :=
    hws f hf
  have htwo : withSuffixPath (d ++ [nameOf f]) ".mp3"
      = d ++ [pyWithSuffixName (nameOf f) ".mp3"] := by
    have hne : d ++ [nameOf f] ≠ [] := by simp
    have hname : nameOf (d ++ [nameOf f]) = nameOf f := by
      unfold nameOf
      rw [List.getLast?_concat]
      rfl
    rw [hws _ hne, List.dropLast_concat, hname]
  have hmem : d ∈ childPrefixes d := by
    have hlen : 0 < d.length := List.length_pos.mpr hd
    unfold childPrefixes
    refine List.mem_map.mpr ⟨d.length - 1, List.mem_range.mpr (by omega), ?_⟩
    rw [Nat.sub_add_cancel hlen, List.take_length]
  refine ⟨hone, rfl, htwo, ?_, ?_, ?_⟩
  · exact List.mem_append_right _ hmem
  · intro q hq
    exact List.mem_append_right _ hq
  · intro q hq
    exact List.mem_append_left _ hq

/-- Witness for C6 at a concrete file and output directory. -/
theorem C6_witness :
    (build_output_path ⟨[["in", "a.mp4"]], []⟩ ["in", "a.mp4"] none).1
        = (["in", "a.mp4"] : PyPath).dropLast
            ++ [pyWithSuffixName (nameOf ["in", "a.mp4"]) ".mp3"] ∧
    (build_output_path ⟨[["in", "a.mp4"]], []⟩ ["in", "a.mp4"] none).2
        = ⟨[["in", "a.mp4"]], []⟩ ∧
    (build_output_path ⟨[["in", "a.mp4"]], []⟩ ["in", "a.mp4"] (some ["o", "u"])).1
        = ["o", "u"] ++ [pyWithSuffixName (nameOf ["in", "a.mp4"]) ".mp3"] ∧
    ["o", "u"] ∈ (build_output_path ⟨[["in", "a.mp4"]], []⟩ ["in", "a.mp4"]
        (some ["o", "u"])).2.dirs ∧
    (∀ q, q ∈ childPrefixes ["o", "u"]
      → q ∈ (build_output_path ⟨[["in", "a.mp4"]], []⟩ ["in", "a.mp4"]
              (some ["o", "u"])).2.dirs) ∧
    (∀ q, q ∈ (⟨[["in", "a.mp4"]], []⟩ : FileSystem).dirs
      → q ∈ (build_output_path ⟨[["in", "a.mp4"]], []⟩ ["in", "a.mp4"]
              (some ["o", "u"])).2.dirs) :=
  C6_output_derivation ⟨[["in", "a.mp4"]], []⟩ ["in", "a.mp4"] ["o", "u"]
    (by decide) (by decide)

/-- C7: the external-tool argument list is, in order: the program
name, the quiet-logging flags, the overwrite-policy flag (`-y` when
overwriting, `-n` otherwise), `-i` with the input path, the
strip-video flag `-vn`, the MP3 encoder selector `-acodec libmp3lame`,
`-b:a` with the bitrate string verbatim, and the output path last. -/
theorem C7_cmd_structure (inp outp br : String) (ow : Bool) :
    convert_cmd inp outp br ow
      = ["ffmpeg"] ++ quietFlags ++ [overwriteFlag ow]
          ++ ["-i", inp] ++ ["-vn"] ++ ["-acodec", "libmp3lame"] ++ ["-b:a", br] ++ [outp] ∧
    (convert_cmd inp outp br ow).getLast? = some outp ∧
    (convert_cmd inp outp br ow).get? 11 = some br ∧
    overwriteFlag true = "-y" ∧ overwriteFlag false = "-n" :=
  ⟨rfl, rfl, rfl, rfl, rfl⟩

/-- C8: a run whose discovery yields zero candidates reports that
there is nothing to convert and exits with code 1, and no
external-tool subprocess is invoked. -/
theorem C8_no_candidates (cfg : RunConfig) (fs : FileSystem) (invoke : Nat → InvokeResult)
    (hav : cfg.ffmpegAvailable = true) (hex : pathExists fs cfg.input = true)
    (hempty : batchInputs cfg fs = []) :
    mainRun cfg fs invoke = (1, [Event.noFiles]) ∧
    (∀ c, Event.invokeTool c ∉ (mainRun cfg fs invoke).2) := by
  have ht : ¬(true = false) := by decide
  have h : mainRun cfg fs invoke = (1, [Event.noFiles]) := by
    unfold mainRun
    rw [hav, hex, if_neg ht, if_neg ht, if_pos hempty]
  refine ⟨h, fun c => ?_⟩
  rw [h]
  simp

def w8fs : FileSystem := ⟨[["d", "x.txt"]], [["d"]]⟩

def w8cfg : RunConfig := ⟨true, ["d"], none, "192k", false, false⟩

def w8inv : Nat → InvokeResult := fun _ => ⟨false, 0, true⟩

/-- Witness for C8: a directory with no matching files. -/
theorem C8_witness :
    mainRun w8cfg w8fs w8inv = (1, [Event.noFiles]) ∧
    (∀ c, Event.invokeTool c ∉ (mainRun w8cfg w8fs w8inv).2) :=
  C8_no_candidates w8cfg w8fs w8inv rfl (by decide) (by decide)

/-- C9: when the input path does not exist, the program prints the
path-not-found diagnostic and exits with code 2 without invoking any
subprocess — and only after the availability guard: with the tool
unavailable the same run exits 127 instead, so the guard is not
bypassed. -/
theorem C9_missing_input (cfg : RunConfig) (fs : FileSystem) (invoke : Nat → InvokeResult)
    (hex : pathExists fs cfg.input = false) :
    (cfg.ffmpegAvailable = true →
      mainRun cfg fs invoke = (2, [Event.inputNotFound cfg.input]) ∧
      ∀ c, Event.invokeTool c ∉ (mainRun cfg fs invoke).2) ∧
    (cfg.ffmpegAvailable = false →
      mainRun cfg fs invoke = (127, [Event.ffmpegMissing])) := by
  have ht : ¬(true = false) := by decide
  constructor
  · intro hav
    have h : mainRun cfg fs invoke = (2, [Event.inputNotFound cfg.input]) := by
      unfold mainRun
      rw [hav, if_neg ht, hex, if_pos rfl]
    refine ⟨h, fun c => ?_⟩
    rw [h]
    simp
  · intro hun
    unfold mainRun
    rw [hun, if_pos rfl]

def w9fs : FileSystem := ⟨[["in", "a.mp4"]], [["in"]]⟩

def w9cfg : RunConfig := ⟨true, ["nope"], none, "192k", false, false⟩

def w9inv : Nat → InvokeResult := fun _ => ⟨false, 0, true⟩

/-- Witness for C9: a nonexistent input path. -/
theorem C9_witness :
    (w9cfg.ffmpegAvailable = true →
      mainRun w9cfg w9fs w9inv = (2, [Event.inputNotFound w9cfg.input]) ∧
      ∀ c, Event.invokeTool c ∉ (mainRun w9cfg w9fs w9inv).2) ∧
    (w9cfg.ffmpegAvailable = false →
      mainRun w9cfg w9fs w9inv = (127, [Event.ffmpegMissing])) :=
  C9_missing_input w9cfg w9fs w9inv (by decide)

/-- C10: when the pre-flight check passed but the `k`-th invocation of
the batch raises `FileNotFoundError`, `convert_one` returns 127 and
that candidate is classified as an ordinary Failed(127) counting one
failure; the run then finishes the whole batch with the failure
summary and process exit code 1 — and with the pre-flight check
passing the process exit code is never 127, for any run. -/
theorem C10_fnf_mid_batch (cfg : RunConfig) (fs : FileSystem) (invoke : Nat → InvokeResult)
    (k : Nat) (hav : cfg.ffmpegAvailable = true) (hex : pathExists fs cfg.input = true)
    (hk1 : 1 ≤ k) (hk2 : k ≤ (batchInputs cfg fs).length)
    (hfnf : (invoke k).fnf = true) :
    convert_one_code (invoke k) = 127 ∧
    outcomeOf cfg.overwrite (invoke k) = Outcome.failed 127 ∧
    stepFail cfg.overwrite (invoke k) = 1 ∧
    (mainRun cfg fs invoke).1 = 1 ∧
    (mainRun cfg fs invoke).2
      = (batchRes cfg fs invoke).2.1
          ++ [Event.summaryFail
                ((batchInputs cfg fs).length - (batchRes cfg fs invoke).1)
                (batchRes cfg fs invoke).1] ∧
    (∀ cfg2 fs2 inv2, cfg2.ffmpegAvailable = true → (mainRun cfg2 fs2 inv2).1 ≠ 127) := by
  have h127 : convert_one_code (invoke k) = 127 := by
    simp [convert_one_code, hfnf]
  have hout : outcomeOf cfg.overwrite (invoke k) = Outcome.failed 127 := by
    unfold outcomeOf classify
    rw [h127]
    have h1 : ¬((127 : Int) = 0) := by norm_num
    have h2 : ¬((127 : Int) = 1 ∧ cfg.overwrite = false ∧ (invoke k).dstExists = true) := by
      intro hc
      exact absurd hc.1 (by norm_num)
    rw [if_neg h1, if_neg h2]
  have hstep : stepFail cfg.overwrite (invoke k) = 1 := by
    unfold stepFail
    rw [hout]
  have hne : batchInputs cfg fs ≠ [] := by
    intro h0
    rw [h0] at hk2
    simp only [List.length_nil] at hk2
    omega
  have hge : 1 ≤ (batchRes cfg fs invoke).1 :=
    processFrom_failures_lower (batchInputs cfg fs) fs 1 (batchInputs cfg fs).length
      cfg.output_dir cfg.bitrate cfg.overwrite invoke k hk1 (by omega) hstep
  have hsum := mainRun_summary cfg fs invoke hav hex hne
  have hmain : mainRun cfg fs invoke
      = (1, (batchRes cfg fs invoke).2.1
            ++ [Event.summaryFail
                  ((batchInputs cfg fs).length - (batchRes cfg fs invoke).1)
                  (batchRes cfg fs invoke).1]) := by
    rw [hsum, if_pos (by omega)]
  refine ⟨h127, hout, hstep, by rw [hmain], by rw [hmain], ?_⟩
  exact fun cfg2 fs2 inv2 hv => mainRun_ne_127 cfg2 fs2 inv2 hv

def w10fs : FileSystem := ⟨[["in", "a.mp4"], ["in", "b.mp4"]], [["in"]]⟩

def w10cfg : RunConfig := ⟨true, ["in"], none, "192k", false, false⟩

def w10inv : Nat → InvokeResult :=
  fun k => if k = 1 then ⟨true, 0, false⟩ else ⟨false, 0, true⟩

/-- Witness for C10: two candidates, the first invocation raising
`FileNotFoundError`, the second succeeding. -/
theorem C10_witness :
    convert_one_code (w10inv 1) = 127 ∧
    outcomeOf w10cfg.overwrite (w10inv 1) = Outcome.failed 127 ∧
    stepFail w10cfg.overwrite (w10inv 1) = 1 ∧
    (mainRun w10cfg w10fs w10inv).1 = 1 ∧
    (mainRun w10cfg w10fs w10inv).2
      = (batchRes w10cfg w10fs w10inv).2.1
          ++ [Event.summaryFail
                ((batchInputs w10cfg w10fs).length - (batchRes w10cfg w10fs w10inv).1)
                (batchRes w10cfg w10fs w10inv).1] ∧
    (∀ cfg2 fs2 inv2, cfg2.ffmpegAvailable = true → (mainRun cfg2 fs2 inv2).1 ≠ 127) :=
  C10_fnf_mid_batch w10cfg w10fs w10inv 1 rfl (by decide) (by decide) (by decide) (by decide)

end VideoMp3
